import Mathlib

/-
Verification of the TDX module version-selection and loading tool
(version_select_and_load.py) against its natural-language specification.

The Python source is shallowly embedded: file contents become lists of
bytes (List Nat, each byte < 256), strings become Lean strings operated
on through their character lists, sysfs reads become fields of a
Platform record (with Option signalling a read failure), and Python
exceptions either map to the handler's behaviour (when caught) or to an
Option-none result (when uncaught).
-/

set_option maxRecDepth 100000

/-- Model of Python str.strip() restricted to ASCII whitespace: true for
the whitespace characters Python strips from sysfs node contents. -/
def isSpc (c : Char) : Bool :=
  c = ' ' || c = '\t' || c = '\n' || c = '\r' || c = '\x0b' || c = '\x0c'

/-- Model of Python str.strip(): drop whitespace from both ends. -/
def pyStrip (cs : List Char) : List Char :=
  ((cs.dropWhile isSpc).reverse.dropWhile isSpc).reverse

/-- Model of Python str.split('.') on a character list: splits on every
dot, keeping empty segments, and yields one (possibly empty) segment for
the empty string, exactly as Python's split with an explicit separator. -/
def splitDots : List Char → List (List Char)
  | [] => [[]]
  | c :: rest =>
    let r := splitDots rest
    if c = '.' then [] :: r
    else
      match r with
      | h :: t => (c :: h) :: t
      | [] => [[c]]

/-- Accumulator for pyInt: consume decimal digits, failing on any
non-digit character (Python int() raises ValueError there). -/
def pyIntAux (acc : Nat) : List Char → Option Nat
  | [] => some acc
  | c :: rest => if c.isDigit then pyIntAux (acc * 10 + (c.toNat - 48)) rest else none

/-- Model of Python int() on the plain decimal numerals this tool feeds
it (version components). none models the ValueError raised on the empty
string or on any non-digit character. -/
def pyInt : List Char → Option Nat
  | [] => none
  | cs => pyIntAux 0 cs

/-- Model of the 3-way unpack major, minor, update = map(int, s.split('.')):
succeeds only when the string has exactly three dot-separated components,
each a decimal numeral; any other shape raises in Python, modelled none. -/
def parseVer3 (cs : List Char) : Option (Nat × Nat × Nat) :=
  match splitDots cs with
  | [a, b, c] =>
    match pyInt a, pyInt b, pyInt c with
    | some x, some y, some z => some (x, y, z)
    | _, _, _ => none
  | _ => none

/-- Model of int(s.split('.')[2]): none models the IndexError (fewer than
three components) or ValueError (non-numeral third component) Python
raises, both uncaught at the call sites embedded below. -/
def third_int (cs : List Char) : Option Nat :=
  match splitDots cs with
  | _ :: _ :: c :: _ => pyInt c
  | _ => none

/-- Model of '.'.join(s.split('.')[:2]); kept as the list of the first
two dot-free segments, whose equality coincides with equality of the
joined Python strings. -/
def major_minor (cs : List Char) : List (List Char) :=
  (splitDots cs).take 2

/-- Read len bytes of a file at offset off: models f.seek(off) followed
by f.read(len), which returns fewer bytes when the file is too short. -/
def readBytes (data : List Nat) (off len : Nat) : List Nat :=
  (data.drop off).take len

/-- Little-endian 32-bit decode of a 4-byte read, as struct.unpack with
format <I; only ever applied under a length-4 guard. -/
def le32 : List Nat → Nat
  | [b0, b1, b2, b3] => b0 + 256 * b1 + 65536 * b2 + 16777216 * b3
  | _ => 0

/-- The sequential entry-read loop of get_supported_cpu_family_model:
reads up to n 4-byte entries starting at pos, masking the low 4 stepping
bits of each; a short read raises ValueError, which the caller's except
clause turns into returning the entries accumulated so far — hence the
list built up to the truncation point is kept. -/
def collectEntries (data : List Nat) (pos : Nat) : Nat → List Nat
  | 0 => []
  | n + 1 =>
    if (readBytes data pos 4).length = 4 then
      (le32 (readBytes data pos 4) &&& 0xFFFFFFF0) :: collectEntries data (pos + 4) n
    else []

/-- get_supported_cpu_family_model: the blob argument is none when the
file cannot be opened (IOError, caught, yielding the initial empty
list). Otherwise read the 4-byte entry count at 0x1000+1024 and then the
entries at 0x1000+1028; a short count read is a caught ValueError with
the list still empty, and a short entry read stops the loop with the
entries accumulated so far. -/
def get_supported_cpu_family_model : Option (List Nat) → List Nat
  | none => []
  | some data =>
    if (readBytes data (0x1000 + 1024) 4).length = 4 then
      collectEntries data (0x1000 + 1028) (le32 (readBytes data (0x1000 + 1024) 4))
    else []

/-- get_module_type: read the 4-byte little-endian module type at
0x1000+12; none models both an unopenable file and the struct.error
raised (and caught, returning None) on a short read. -/
def get_module_type : Option (List Nat) → Option Nat
  | none => none
  | some data =>
    if (readBytes data (0x1000 + 12) 4).length = 4 then
      some (le32 (readBytes data (0x1000 + 12) 4))
    else none

/-- Whether one entry of min_seamldr_versions matches the parsed current
seamldr version (cm, cn, cu): well-formed, same major and minor, and its
update at most the current update. Matches exactly the accepting test of
one iteration of the entry loop. -/
def entryMatches (cm cn cu : Nat) (v : String) : Bool :=
  match parseVer3 v.data with
  | none => false
  | some (a, b, u) => decide (a = cm ∧ b = cn ∧ u ≤ cu)

/-- The TdxModule record, fields as in the Python class. path is an
Option because update_tdx_module explicitly tests module.path is None. -/
structure TdxModule where
  version : String
  path : Option String
  supported_CPU_family_model : List Nat
  min_module_version_for_td_preserving : String
  min_seamldr_versions : List String
  tdx_feature0 : String
  type : Nat
deriving DecidableEq

/-- Live platform state behind the sysfs reads and the control
interface. Node fields hold raw (untrimmed) contents; none models a
failed read, which the Python getters catch and turn into None.
status_node i is the content of the i-th status poll, with the model
clock advancing one second per poll (time.sleep(1) between reads,
reads themselves instantaneous). -/
structure Platform where
  module_version_node : Option String
  seamldr_version_node : Option String
  cpuid_1_eax : Option Nat
  firmware_path_exists : Bool
  status_node : Nat → String
  error_node : String

/-- get_current_module_version: read and strip the module version node,
None on a failed read. -/
def get_current_module_version (p : Platform) : Option (List Char) :=
  p.module_version_node.map (fun s => pyStrip s.data)

/-- get_current_seamldr_version: read and strip the seamldr version
node, None on a failed read. -/
def get_current_seamldr_version (p : Platform) : Option (List Char) :=
  p.seamldr_version_node.map (fun s => pyStrip s.data)

/-- get_cpuid_1_eax: the CPUID.1.EAX read, None when the cpuid call
fails (non-Intel CPU). -/
def get_cpuid_1_eax (p : Platform) : Option Nat :=
  p.cpuid_1_eax

/-- The entry loop of is_compatible_with_seamldr: scan the minimum
seamldr versions in order; a malformed entry raises, which the enclosing
except turns into False immediately (later entries unexamined); a
well-formed entry matching major and minor with update ≤ current returns
True on the spot. -/
def seamldrScan (cm cn cu : Nat) : List String → Bool
  | [] => false
  | v :: rest =>
    match parseVer3 v.data with
    | none => false
    | some (a, b, u) =>
      if a = cm ∧ b = cn ∧ u ≤ cu then true else seamldrScan cm cn cu rest

/-- is_compatible_with_seamldr: parse the current seamldr version (any
malformation is caught and yields False), then scan the module's
min_seamldr_versions. -/
def is_compatible_with_seamldr (m : TdxModule) (sv : List Char) : Bool :=
  match parseVer3 sv with
  | none => false
  | some (cm, cn, cu) => seamldrScan cm cn cu m.min_seamldr_versions

/-- is_compatible: seamldr version readable and compatible, then the
masked CPUID.1.EAX must be one of the module's supported family-models. -/
def is_compatible (p : Platform) (m : TdxModule) : Bool :=
  match get_current_seamldr_version p with
  | none => false
  | some sv =>
    if is_compatible_with_seamldr m sv then
      match get_cpuid_1_eax p with
      | none => false
      | some eax => m.supported_CPU_family_model.contains (eax &&& 0xFFFFFFF0)
    else false

/-- is_debug: bit 31 of the module type marks a debug build. -/
def is_debug (m : TdxModule) : Bool :=
  m.type &&& (1 <<< 31) != 0

/-- is_td_preserving_capable. The result is Option Bool: some b is a
normal return, none models the uncaught IndexError or ValueError raised
by int(version.split('.')[2]) when the current module version (read and
non-empty but malformed) or the module's own version strings lack a
parseable third component. The Python falsy test "if not current_version"
also catches the empty string, hence the explicit cv = [] case. -/
def is_td_preserving_capable (p : Platform) (m : TdxModule) (allow_debug : Bool) : Option Bool :=
  if is_debug m = true ∧ allow_debug = false then some false
  else
    match get_current_module_version p with
    | none => some false
    | some cv =>
      if cv = [] then some false
      else
        match third_int cv with
        | none => none
        | some current_update =>
          match third_int m.version.data with
          | none => none
          | some module_update =>
            match third_int m.min_module_version_for_td_preserving.data with
            | none => none
            | some min_preserving_update =>
              some (decide (major_minor m.version.data = major_minor cv ∧
                            module_update ≥ current_update ∧
                            min_preserving_update ≤ current_update))

/-- Key used by find_newest_tdx_module's sort: int(version.split('.')[2]).
Every module reaching the sort has already had this component parsed
successfully inside is_td_preserving_capable, so the default never fires
on reachable inputs (Python would raise there; the filtered list cannot
contain such a module). -/
def updKey (m : TdxModule) : Nat :=
  (third_int m.version.data).getD 0

/-- One insertion step of a stable descending sort on updKey: the new
element is placed after every already-placed element of equal or larger
key, exactly the ordering list.sort(key=..., reverse=True) produces. -/
def insertDesc (x : TdxModule) : List TdxModule → List TdxModule
  | [] => [x]
  | y :: t => if updKey y < updKey x then x :: y :: t else y :: insertDesc x t

/-- Stable descending sort by updKey, modelling
td_preserving_modules.sort(key=lambda m: int(m.version.split('.')[2]), reverse=True).
Only its specification matters: a permutation of the input, descending
in updKey, stable for equal keys. -/
def sortUpdateDesc (l : List TdxModule) : List TdxModule :=
  l.foldl (fun acc x => insertDesc x acc) []

/-- The filtering comprehension of find_newest_tdx_module: keep the
TD-preserving-capable modules; none propagates the uncaught exception
is_td_preserving_capable may raise on a malformed version string. -/
def filterCapable (p : Platform) (ad : Bool) : List TdxModule → Option (List TdxModule)
  | [] => some []
  | m :: rest =>
    match is_td_preserving_capable p m ad with
    | none => none
    | some b =>
      match filterCapable p ad rest with
      | none => none
      | some l => some (if b then m :: l else l)

/-- find_newest_tdx_module: filter to TD-preserving-capable modules,
sort by the update component descending, return the first or None when
the filtered list is empty (inner none); outer none propagates an
uncaught exception from the capability check. -/
def find_newest_tdx_module (p : Platform) (ad : Bool) (modules : List TdxModule) : Option (Option TdxModule) :=
  (filterCapable p ad modules).map (fun caps => (sortUpdateDesc caps).head?)

/-- A release record of mapping_file.json: the three metadata fields are
optional because release_info.get returns None for a missing key. -/
structure ReleaseInfo where
  version : String
  min_module_version_for_td_preserving : Option String
  min_seamldr_versions : Option (List String)
  tdx_feature0 : Option String
deriving DecidableEq

/-- A candidate blob file: its basename and its contents (none when the
file cannot be opened). -/
structure BlobFile where
  name : String
  content : Option (List Nat)
deriving DecidableEq

/-- The dict comprehension releases_info: with duplicate version keys the
later entry overwrites the earlier, so the lookup returns the last
matching record. -/
def lookupRelease (rs : List ReleaseInfo) (v : String) : Option ReleaseInfo :=
  (rs.filter (fun r => r.version == v)).getLast?

/-- Model of the filename version extraction
re.search(r"tdx_module_(\d+\.\d+\.\d+)\.blob", basename) applied to the
glob-shaped names tdx_module_*.blob the directory walk produces: the
name must be the literal prefix, a three-component decimal version, and
the literal suffix. -/
def extractVersion (name : String) : Option String :=
  let cs := name.data
  if cs.take 11 = ("tdx_module_".data) ∧ 16 ≤ cs.length ∧
     cs.drop (cs.length - 5) = (".blob".data) then
    let core := (cs.drop 11).take (cs.length - 16)
    match splitDots core with
    | [a, b, c] =>
      if a ≠ [] ∧ a.all Char.isDigit ∧ b ≠ [] ∧ b.all Char.isDigit ∧
         c ≠ [] ∧ c.all Char.isDigit then some (String.mk core)
      else none
    | _ => none
  else none

/-- The per-blob loop body of get_all_tdx_modules: skip a blob whose
name yields no version, whose version has no release record, or where
the module type or any of the three metadata fields is missing;
otherwise construct the fully populated TdxModule. -/
def buildModules (releases : List ReleaseInfo) : List BlobFile → List TdxModule
  | [] => []
  | bf :: rest =>
    match extractVersion bf.name with
    | none => buildModules releases rest
    | some version =>
      match lookupRelease releases version with
      | none => buildModules releases rest
      | some rel =>
        match get_module_type bf.content, rel.min_module_version_for_td_preserving,
              rel.min_seamldr_versions, rel.tdx_feature0 with
        | some t, some mv, some sls, some f0 =>
          { version := version
            path := some bf.name
            supported_CPU_family_model := get_supported_cpu_family_model bf.content
            min_module_version_for_td_preserving := mv
            min_seamldr_versions := sls
            tdx_feature0 := f0
            type := t } :: buildModules releases rest
        | _, _, _, _ => buildModules releases rest

/-- get_all_tdx_modules: mapping is none when loading or parsing
mapping_file.json fails (or the directory walk fails), in which case the
whole catalog build returns None; otherwise every discovered blob is
processed and failures only drop the individual candidate. -/
def get_all_tdx_modules (mapping : Option (List ReleaseInfo)) (blobs : List BlobFile) : Option (List TdxModule) :=
  mapping.map (fun releases => buildModules releases blobs)

/-- Control-interface operations performed by update_tdx_module, in
order. Only these four nodes are ever touched. -/
inductive FwEvent where
  | writeLoading (s : String)
  | writeData (path : String)
  | readStatus
  | readError
deriving DecidableEq

/-- Outcome of one update_tdx_module invocation. Failed carries the
failure reason reported to the operator — the trimmed error-node
content embedded verbatim in the diagnostic (the surrounding console
text is formatting, out of the specified core). -/
inductive Outcome where
  | NoModule
  | Incompatible
  | DebugRejected
  | NotTdPreserving
  | MissingFirmwarePath
  | TimedOut
  | Failed (msg : List Char)
  | Succeeded
deriving DecidableEq

/-- Outcomes on which the process terminates with a failure signal
(sys.exit(1)). -/
def isFatal : Outcome → Bool
  | Outcome.MissingFirmwarePath => true
  | Outcome.TimedOut => true
  | Outcome.Failed _ => true
  | _ => false

/-- The poll loop of update_tdx_module under the model clock (read i at
i seconds into polling): read and trim the status node; "idle" ends the
loop successfully, returning the index of the succeeding read; otherwise
the elapsed-time check time.time() - start_time > 10 fires first at
i = 11, returning none. The fuel argument (started at 12, one more than
the last reachable iteration) only makes the recursion structural and is
never exhausted before one of the loop's own exits. -/
def pollGo (status : Nat → String) : Nat → Nat → Option Nat
  | _, 0 => none
  | i, fuel + 1 =>
    if pyStrip (status i).data = "idle".data then some i
    else if i > 10 then none
    else pollGo status (i + 1) fuel

/-- Entry into the polling phase. -/
def pollIdle (status : Nat → String) : Option Nat :=
  pollGo status 0 12

/-- The three control-interface writes that arm and transfer: loading=1,
the whole blob, loading=0. -/
def armEvents (m : TdxModule) : List FwEvent :=
  [FwEvent.writeLoading "1", FwEvent.writeData (m.path.getD ""), FwEvent.writeLoading "0"]

/-- update_tdx_module: precondition checks in source order (missing
module or path, compatibility, debug gate, TD-preserving capability,
existence of the firmware control root), each aborting with no
control-interface event; then the arming writes, the bounded poll, and
the error-node inspection. The outer none propagates the uncaught
exception is_td_preserving_capable may raise. The model keeps the
control-interface writes and reads as the event trace; writes themselves
are assumed to succeed (an I/O failure there is caught and merely
reported by the source). -/
def update_tdx_module (p : Platform) (mo : Option TdxModule) (ad : Bool) : Option (Outcome × List FwEvent) :=
  match mo with
  | none => some (Outcome.NoModule, [])
  | some m =>
    if m.path = none then some (Outcome.NoModule, [])
    else if is_compatible p m = false then some (Outcome.Incompatible, [])
    else if is_debug m = true ∧ ad = false then some (Outcome.DebugRejected, [])
    else
      match is_td_preserving_capable p m ad with
      | none => none
      | some false => some (Outcome.NotTdPreserving, [])
      | some true =>
        if p.firmware_path_exists = false then some (Outcome.MissingFirmwarePath, [])
        else
          match pollIdle p.status_node with
          | none => some (Outcome.TimedOut, armEvents m ++ List.replicate 12 FwEvent.readStatus)
          | some i =>
            if pyStrip p.error_node.data = [] then
              some (Outcome.Succeeded,
                    armEvents m ++ List.replicate (i + 1) FwEvent.readStatus ++ [FwEvent.readError])
            else
              some (Outcome.Failed (pyStrip p.error_node.data),
                    armEvents m ++ List.replicate (i + 1) FwEvent.readStatus ++ [FwEvent.readError])

/-- The head of a list, when present, dominates every element under
updKey; the shape find_newest_tdx_module needs of its sorted list. -/
def headMax : List TdxModule → Prop
  | [] => True
  | h :: t => ∀ y ∈ h :: t, updKey y ≤ updKey h

/-- A baseline well-formed module used to build the concrete test
fixtures below: release 1.5.12, production (type 0), supporting the
masked family-model 16, preserving TDs from 1.5.8, requiring seamldr
2.1.3 or a matching 2.0.9. -/
def mBase : TdxModule :=
  { version := "1.5.12"
    path := some "tdx_module_1.5.12.blob"
    supported_CPU_family_model := [16]
    min_module_version_for_td_preserving := "1.5.8"
    min_seamldr_versions := ["2.1.3", "2.0.9"]
    tdx_feature0 := "0"
    type := 0 }

/-- A baseline platform on which mBase is compatible and capable:
current module 1.5.10, seamldr 2.1.5, masked CPU family-model 16,
firmware root present, status idle at once, empty error node. -/
def pBase : Platform :=
  { module_version_node := some "1.5.10"
    seamldr_version_node := some "2.1.5"
    cpuid_1_eax := some 16
    firmware_path_exists := true
    status_node := fun _ => "idle"
    error_node := "" }

/-- C1 fixture: a blob whose supported-CPU table announces two entries
but contains only one complete 4-byte entry (value 16) before EOF. -/
def c1data : List Nat :=
  List.replicate 5120 0 ++ [2, 0, 0, 0] ++ [16, 0, 0, 0]

/-- C2 counterexample fixture: a well-formed matching entry before a
malformed one. -/
def mC2x : TdxModule := { mBase with min_seamldr_versions := ["2.1.3", "bad"] }

/-- C2 witness fixture: a well-formed non-matching entry before a
malformed one. -/
def mC2w : TdxModule := { mBase with min_seamldr_versions := ["2.9.9", "bad"] }

/-- C3 fixture: error node content whose trimmed value is "boom". -/
def pC3 : Platform := { pBase with error_node := " boom \x0a" }

/-- C3 fixture module. -/
def mC3 : TdxModule := mBase

/-- C4 fixture platform: current module version 1.5.10. -/
def pC4 : Platform := pBase

/-- C4 capable candidate 1.5.12 (min TD-preserving 1.5.8). -/
def mC4 : TdxModule := mBase

/-- C4 incapable candidate 1.5.9, older than the current 1.5.10. -/
def mC4b : TdxModule := { mBase with version := "1.5.9" }

/-- C5 fixture platform: current module version 1.5.9 so that all three
sample candidates are TD-preserving-capable. -/
def pC5 : Platform := { pBase with module_version_node := some "1.5.9" }

/-- C5 candidate 1.5.9. -/
def mC5a : TdxModule :=
  { mBase with version := "1.5.9", min_module_version_for_td_preserving := "1.5.0" }

/-- C5 candidate 1.5.12. -/
def mC5b : TdxModule :=
  { mBase with version := "1.5.12", min_module_version_for_td_preserving := "1.5.0" }

/-- C5 candidate 1.5.10. -/
def mC5c : TdxModule :=
  { mBase with version := "1.5.10", min_module_version_for_td_preserving := "1.5.0" }

/-- C6 fixture: min-list with a matching 2.1.3 entry. -/
def mC6 : TdxModule := mBase

/-- C6 fixture: min-list 2.2.0 only, minor mismatch with seamldr 2.1.5. -/
def mC6b : TdxModule := { mBase with min_seamldr_versions := ["2.2.0"] }

/-- C7 fixture: a platform whose seamldr version node is unreadable, so
any candidate is rejected as incompatible before any write. -/
def pC7 : Platform := { pBase with seamldr_version_node := none }

/-- C7 fixture module. -/
def mC7 : TdxModule := mBase

/-- C8 witness fixture: the status node never reads idle. -/
def pC8to : Platform := { pBase with status_node := fun _ => "busy" }

/-- C8 counterexample fixture: the status node first reads idle at the
poll 11 seconds after entry into polling — after the 10-second deadline
but before the timeout check fires. -/
def pC8late : Platform :=
  { pBase with status_node := fun i => if 11 ≤ i then "idle" else "busy" }

/-- C8 fixture module. -/
def mC8 : TdxModule := mBase

/-- C9 fixture release list: metadata for 1.5.12 only. -/
def rsC9 : List ReleaseInfo :=
  [{ version := "1.5.12"
     min_module_version_for_td_preserving := some "1.5.8"
     min_seamldr_versions := some ["2.1.3"]
     tdx_feature0 := some "0" }]

/-- C9 fixture blob content: module type 7 at 0x1000+12, one supported
family-model entry 16. -/
def c9blob : List Nat :=
  List.replicate 4108 0 ++ [7, 0, 0, 0] ++ List.replicate 1008 0 ++
    [1, 0, 0, 0] ++ [16, 0, 0, 0]

/-- C9 fixture blobs: a well-formed 1.5.12 blob and a 1.5.13 blob with
no matching metadata entry, which must be dropped. -/
def bsC9 : List BlobFile :=
  [{ name := "tdx_module_1.5.12.blob", content := some c9blob },
   { name := "tdx_module_1.5.13.blob", content := some c9blob }]

/-- C10 fixture: a readable but malformed (two-component) current module
version. -/
def pC10 : Platform := { pBase with module_version_node := some "1.5" }

/-- C10 fixture: a readable empty current module version, on which the
evaluator returns False without parsing anything. -/
def pC10e : Platform := { pBase with module_version_node := some "" }

/-- C10 fixture module: non-debug with well-formed version fields. -/
def mC10 : TdxModule := mBase

lemma parseVer3_ne_nil (cs : List Char) (t : Nat × Nat × Nat)
    (h : parseVer3 cs = some t) : cs ≠ [] := by
  rintro rfl
  simp [parseVer3, splitDots] at h

lemma third_int_of_parse (cs : List Char) (a b u : Nat)
    (h : parseVer3 cs = some (a, b, u)) : third_int cs = some u := by
  unfold parseVer3 at h
  unfold third_int
  rcases hs : splitDots cs with _ | ⟨x, _ | ⟨y, _ | ⟨z, _ | ⟨w, l⟩⟩⟩⟩ <;>
    rw [hs] at h <;> try simp at h
  cases hx : pyInt x <;> cases hy : pyInt y <;> cases hz : pyInt z <;> simp_all

lemma gate_false_of_cap_true (p : Platform) (m : TdxModule) (ad : Bool)
    (h : is_td_preserving_capable p m ad = some true) :
    ¬(is_debug m = true ∧ ad = false) := by
  intro hg
  rw [is_td_preserving_capable, if_pos hg] at h
  simp at h

lemma pollGo_timeout (status : Nat → String) :
    ∀ fuel i, i + fuel = 12 →
      (∀ j, j ≤ 11 → pyStrip (status j).data ≠ "idle".data) →
      pollGo status i fuel = none := by
  intro fuel
  induction fuel with
  | zero => intro i _ _; rfl
  | succ n ih =>
    intro i hi hst
    simp only [pollGo]
    rw [if_neg (hst i (by omega))]
    by_cases hgt : i > 10
    · rw [if_pos hgt]
    · rw [if_neg hgt]
      exact ih (i + 1) (by omega) hst

lemma collectEntries_truncation (data : List Nat) :
    ∀ k n pos, k < n →
      (∀ j, j < k → (readBytes data (pos + 4 * j) 4).length = 4) →
      (readBytes data (pos + 4 * k) 4).length ≠ 4 →
      collectEntries data pos n =
        (List.range k).map (fun j => le32 (readBytes data (pos + 4 * j) 4) &&& 0xFFFFFFF0) := by
  intro k
  induction k with
  | zero =>
    intro n pos hk hok hshort
    obtain ⟨n', rfl⟩ : ∃ n', n = n' + 1 := ⟨n - 1, by omega⟩
    have h0 : (readBytes data pos 4).length ≠ 4 := by simpa using hshort
    simp [collectEntries, h0]
  | succ k ih =>
    intro n pos hk hok hshort
    obtain ⟨n', rfl⟩ : ∃ n', n = n' + 1 := ⟨n - 1, by omega⟩
    have h0 : (readBytes data pos 4).length = 4 := by simpa using hok 0 (by omega)
    simp only [collectEntries, if_pos h0]
    have hok' : ∀ j, j < k → (readBytes data (pos + 4 + 4 * j) 4).length = 4 := by
      intro j hj
      have := hok (j + 1) (by omega)
      have harith : pos + 4 * (j + 1) = pos + 4 + 4 * j := by ring
      rwa [harith] at this
    have hshort' : (readBytes data (pos + 4 + 4 * k) 4).length ≠ 4 := by
      have harith : pos + 4 * (k + 1) = pos + 4 + 4 * k := by ring
      rwa [harith] at hshort
    rw [ih n' (pos + 4) (by omega) hok' hshort']
    rw [List.range_succ_eq_map, List.map_cons, List.map_map]
    congr 1
    apply List.map_congr_left
    intro j _
    have harith : pos + 4 + 4 * j = pos + 4 * (j + 1) := by ring
    simp [Function.comp, harith, Nat.succ_eq_add_one]

lemma mem_insertDesc (x : TdxModule) (l : List TdxModule) (a : TdxModule) :
    a ∈ insertDesc x l ↔ a = x ∨ a ∈ l := by
  induction l with
  | nil => simp [insertDesc]
  | cons y t ih =>
    simp only [insertDesc]
    split
    · simp [List.mem_cons]
    · simp [List.mem_cons, ih]
      tauto

lemma headMax_insertDesc (x : TdxModule) (l : List TdxModule) (h : headMax l) :
    headMax (insertDesc x l) := by
  cases l with
  | nil =>
    intro y hy
    simp [insertDesc] at hy
    simp [hy]
  | cons z t =>
    simp only [insertDesc]
    split
    · intro y hy
      rcases List.mem_cons.mp hy with rfl | hy'
      · exact le_refl _
      · exact le_trans (h y hy') (le_of_lt (by assumption))
    · intro y hy
      rcases List.mem_cons.mp hy with rfl | hy'
      · exact le_refl _
      · rcases (mem_insertDesc x t y).mp hy' with rfl | hyt
        · omega
        · exact h y (List.mem_cons_of_mem z hyt)

lemma foldl_insert_headMax (l : List TdxModule) :
    ∀ acc, headMax acc → headMax (l.foldl (fun a x => insertDesc x a) acc) := by
  induction l with
  | nil => intro acc h; exact h
  | cons x t ih => intro acc h; exact ih _ (headMax_insertDesc x acc h)

lemma mem_foldl_insert (l : List TdxModule) :
    ∀ acc a, a ∈ l.foldl (fun a x => insertDesc x a) acc ↔ a ∈ acc ∨ a ∈ l := by
  induction l with
  | nil => simp
  | cons x t ih =>
    intro acc a
    simp only [List.foldl_cons, ih, mem_insertDesc, List.mem_cons]
    tauto

lemma mem_sortUpdateDesc (l : List TdxModule) (a : TdxModule) :
    a ∈ sortUpdateDesc l ↔ a ∈ l := by
  unfold sortUpdateDesc
  rw [mem_foldl_insert]
  simp

lemma sortUpdateDesc_headMax (l : List TdxModule) : headMax (sortUpdateDesc l) :=
  foldl_insert_headMax l [] trivial

lemma sortUpdateDesc_eq_nil (l : List TdxModule) : sortUpdateDesc l = [] ↔ l = [] := by
  rw [List.eq_nil_iff_forall_not_mem, List.eq_nil_iff_forall_not_mem]
  constructor
  · intro h a ha
    exact h a ((mem_sortUpdateDesc l a).mpr ha)
  · intro h a ha
    exact h a ((mem_sortUpdateDesc l a).mp ha)

lemma filterCapable_eq (p : Platform) (ad : Bool) :
    ∀ l caps, filterCapable p ad l = some caps →
      caps = l.filter (fun m => decide (is_td_preserving_capable p m ad = some true)) := by
  intro l
  induction l with
  | nil =>
    intro caps h
    simp only [filterCapable, Option.some.injEq] at h
    simp [← h]
  | cons m t ih =>
    intro caps h
    simp only [filterCapable] at h
    rcases hc : is_td_preserving_capable p m ad with _ | b
    · rw [hc] at h; simp at h
    · rw [hc] at h
      rcases hf : filterCapable p ad t with _ | l'
      · rw [hf] at h; simp at h
      · rw [hf] at h
        simp only [Option.some.injEq] at h
        cases b with
        | false =>
          simp at h
          rw [← h, List.filter_cons]
          simp [hc]
          exact ih l' hf
        | true =>
          simp at h
          rw [← h, List.filter_cons]
          simp [hc]
          exact ih l' hf

lemma seamldrScan_iff (cm cn cu : Nat) :
    ∀ l : List String, (∀ v ∈ l, (parseVer3 v.data).isSome) →
      (seamldrScan cm cn cu l = true ↔
        ∃ v ∈ l, ∃ a b u, parseVer3 v.data = some (a, b, u) ∧ a = cm ∧ b = cn ∧ u ≤ cu) := by
  intro l
  induction l with
  | nil => simp [seamldrScan]
  | cons v t ih =>
    intro hwf
    simp only [seamldrScan]
    rcases hv : parseVer3 v.data with _ | ⟨a, b, u⟩
    · exfalso
      have := hwf v (List.mem_cons_self v t)
      rw [hv] at this
      simp at this
    · simp only [hv]
      by_cases hm : a = cm ∧ b = cn ∧ u ≤ cu
      · rw [if_pos hm]
        constructor
        · intro _
          exact ⟨v, List.mem_cons_self v t, a, b, u, hv, hm⟩
        · intro _
          rfl
      · rw [if_neg hm]
        rw [ih (fun w hw => hwf w (List.mem_cons_of_mem v hw))]
        constructor
        · rintro ⟨w, hw, a', b', u', hw2, hw3⟩
          exact ⟨w, List.mem_cons_of_mem v hw, a', b', u', hw2, hw3⟩
        · rintro ⟨w, hw, a', b', u', hw2, hw3⟩
          rcases List.mem_cons.mp hw with rfl | hw'
          · exfalso
            rw [hv] at hw2
            injection hw2 with he
            obtain ⟨rfl, rfl, rfl⟩ : a = a' ∧ b = b' ∧ u = u' := by
              simpa [Prod.ext_iff] using he
            exact hm hw3
          · exact ⟨w, hw', a', b', u', hw2, hw3⟩

lemma seamldrScan_false_before_match (cm cn cu : Nat) :
    ∀ pre (bad : String) rest, parseVer3 bad.data = none →
      (∀ v ∈ pre, entryMatches cm cn cu v = false) →
      seamldrScan cm cn cu (pre ++ bad :: rest) = false := by
  intro pre
  induction pre with
  | nil =>
    intro bad rest hbad _
    simp only [List.nil_append, seamldrScan, hbad]
  | cons v pre' ih =>
    intro bad rest hbad hpre
    simp only [List.cons_append, seamldrScan]
    rcases hv : parseVer3 v.data with _ | ⟨a, b, u⟩
    · simp only [hv]
    · simp only [hv]
      have hvm := hpre v (List.mem_cons_self v pre')
      unfold entryMatches at hvm
      rw [hv] at hvm
      simp at hvm
      rw [if_neg (by intro hand; exact absurd hand.2.2 (by simpa using hvm hand.1 hand.2.1))]
      exact ih bad rest hbad (fun w hw => hpre w (List.mem_cons_of_mem v hw))

/-- C1 counterexample. The claim says any truncated entry mid-table
yields an empty family-model set. Concretely, c1data announces 2 entries
but holds only one complete entry before EOF: the entry count reads
fine, entry 0 reads fine, entry 1 is truncated, and the function returns
the non-empty partial table with the masked entry 16 — not the empty
set. -/
theorem C1_truncated_table_not_empty :
    (readBytes c1data (0x1000 + 1024) 4).length = 4 ∧
    le32 (readBytes c1data (0x1000 + 1024) 4) = 2 ∧
    (readBytes c1data (0x1000 + 1028 + 4 * 1) 4).length ≠ 4 ∧
    get_supported_cpu_family_model (some c1data) = [16] := by
  decide

/-- C1, amended: an unopenable blob or a short read of the 4-byte entry
count yields the empty family-model set, but a truncated entry mid-table
yields exactly the masked entries read before the truncation point —
a possibly non-empty partial table, not the empty set. -/
theorem C1_header_read_truncation (b : Option (List Nat)) :
    (b = none → get_supported_cpu_family_model b = []) ∧
    ∀ data, b = some data →
      ((readBytes data (0x1000 + 1024) 4).length ≠ 4 →
        get_supported_cpu_family_model b = []) ∧
      ∀ k, (readBytes data (0x1000 + 1024) 4).length = 4 →
        k < le32 (readBytes data (0x1000 + 1024) 4) →
        (∀ j, j < k → (readBytes data (0x1000 + 1028 + 4 * j) 4).length = 4) →
        (readBytes data (0x1000 + 1028 + 4 * k) 4).length ≠ 4 →
        get_supported_cpu_family_model b =
          (List.range k).map
            (fun j => le32 (readBytes data (0x1000 + 1028 + 4 * j) 4) &&& 0xFFFFFFF0) := by
  constructor
  · rintro rfl
    rfl
  · rintro data rfl
    constructor
    · intro hlen
      simp only [get_supported_cpu_family_model, if_neg hlen]
    · intro k hlen hk hok hshort
      simp only [get_supported_cpu_family_model, if_pos hlen]
      exact collectEntries_truncation data k _ (0x1000 + 1028) hk hok hshort

/-- C1 witness: the amended theorem applied to the concrete truncated
blob c1data, at truncation index 1, evaluates to the one-entry partial
table. -/
theorem C1_header_read_truncation_witness :
    get_supported_cpu_family_model (some c1data) = [16] := by
  have h := ((C1_header_read_truncation (some c1data)).2 c1data rfl).2 1
    (by decide) (by decide) (by decide) (by decide)
  rw [h]
  decide

/-- C2 counterexample. The claim says any malformed entry anywhere in
min_seamldr_versions forces False. Concretely, with current seamldr
2.1.5 and entries 2.1.3 followed by the malformed "bad", the scan
accepts 2.1.3 before ever examining "bad" and returns True. -/
theorem C2_malformed_after_match_true :
    parseVer3 ("bad".data) = none ∧
    mC2x.min_seamldr_versions = ["2.1.3", "bad"] ∧
    is_compatible_with_seamldr mC2x ("2.1.5".data) = true := by
  decide

/-- C2, amended: an unparseable current seamldr version always yields
False, and a malformed entry yields False exactly when it is reached —
that is, when no earlier entry of the list already matched; entries are
scanned in order and a match short-circuits to True before later
malformed entries are examined. -/
theorem C2_parse_failure_incompatible (m : TdxModule) (sv : List Char) :
    (parseVer3 sv = none → is_compatible_with_seamldr m sv = false) ∧
    (∀ cm cn cu pre bad rest,
      parseVer3 sv = some (cm, cn, cu) →
      m.min_seamldr_versions = pre ++ bad :: rest →
      parseVer3 bad.data = none →
      (∀ v ∈ pre, entryMatches cm cn cu v = false) →
      is_compatible_with_seamldr m sv = false) := by
  constructor
  · intro h
    simp only [is_compatible_with_seamldr, h]
  · intro cm cn cu pre bad rest hs hsplit hbad hpre
    simp only [is_compatible_with_seamldr, hs, hsplit]
    exact seamldrScan_false_before_match cm cn cu pre bad rest hbad hpre

/-- C2 witness: the amended theorem applied to a module whose entry list
is a non-matching 2.9.9 followed by the malformed "bad", against current
seamldr 2.1.5. -/
theorem C2_parse_failure_incompatible_witness :
    is_compatible_with_seamldr mC2w ("2.1.5".data) = false :=
  (C2_parse_failure_incompatible mC2w ("2.1.5".data)).2 2 1 5 ["2.9.9"] "bad" []
    (by decide) (by decide) (by decide) (by decide)

/-- C6: for a module whose min_seamldr_versions entries are all
well-formed dotted triples and a well-formed current seamldr version
(cm, cn, cu), is_compatible_with_seamldr returns True exactly when some
entry has the same major and minor and an update at most the current
update. -/
theorem C6_seamldr_compat_iff (m : TdxModule) (sv : List Char) (cm cn cu : Nat)
    (hs : parseVer3 sv = some (cm, cn, cu))
    (hwf : ∀ v ∈ m.min_seamldr_versions, (parseVer3 v.data).isSome) :
    (is_compatible_with_seamldr m sv = true ↔
      ∃ v ∈ m.min_seamldr_versions,
        ∃ a b u, parseVer3 v.data = some (a, b, u) ∧ a = cm ∧ b = cn ∧ u ≤ cu) := by
  simp only [is_compatible_with_seamldr, hs]
  exact seamldrScan_iff cm cn cu m.min_seamldr_versions hwf

/-- C6 witness: current seamldr 2.1.5 with min-list [2.1.3, 2.0.9] is
compatible (via the theorem, through the matching 2.1.3 entry), and with
min-list [2.2.0] it is not (minor mismatch). -/
theorem C6_seamldr_compat_iff_witness :
    is_compatible_with_seamldr mC6 ("2.1.5".data) = true ∧
    is_compatible_with_seamldr mC6b ("2.1.5".data) = false := by
  constructor
  · exact (C6_seamldr_compat_iff mC6 ("2.1.5".data) 2 1 5 (by decide) (by decide)).mpr
      ⟨"2.1.3", by decide, 2, 1, 3, by decide, rfl, rfl, by decide⟩
  · decide

/-- C4: with a readable, well-formed current module version (a, b, u),
is_td_preserving_capable returns True exactly when the debug gate passes
(not debug, or the override set), the candidate's major.minor prefix
equals the current one, the candidate's update component parses and is
at least the current update, and the update component of its
min_module_version_for_td_preserving parses and is at most the current
update. -/
theorem C4_td_preserving_iff (p : Platform) (m : TdxModule) (ad : Bool)
    (cv : List Char) (a b u : Nat)
    (hcv : get_current_module_version p = some cv)
    (hparse : parseVer3 cv = some (a, b, u)) :
    (is_td_preserving_capable p m ad = some true ↔
      ((is_debug m = false ∨ ad = true) ∧
       major_minor m.version.data = major_minor cv ∧
       (∃ mu, third_int m.version.data = some mu ∧ u ≤ mu) ∧
       (∃ pu, third_int m.min_module_version_for_td_preserving.data = some pu ∧ pu ≤ u))) := by
  unfold is_td_preserving_capable
  by_cases hg : is_debug m = true ∧ ad = false
  · rw [if_pos hg]
    constructor
    · intro h
      simp at h
    · rintro ⟨hd, -⟩
      rcases hd with hd | hd
      · rw [hg.1] at hd
        exact absurd hd (by simp)
      · rw [hg.2] at hd
        exact absurd hd (by simp)
  · rw [if_neg hg]
    simp only [hcv]
    rw [if_neg (parseVer3_ne_nil cv (a, b, u) hparse)]
    simp only [third_int_of_parse cv a b u hparse]
    have hgate : is_debug m = false ∨ ad = true := by
      by_cases h1 : is_debug m = true
      · by_cases h2 : ad = false
        · exact absurd ⟨h1, h2⟩ hg
        · exact Or.inr (by simpa using h2)
      · exact Or.inl (by simpa using h1)
    rcases h1 : third_int m.version.data with _ | mu
    · simp [h1]
    · rcases h2 : third_int m.min_module_version_for_td_preserving.data with _ | pu
      · simp [h1, h2]
      · simp only [h1, h2, Option.some.injEq, decide_eq_true_eq]
        constructor
        · rintro ⟨hmm, hge, hle⟩
          exact ⟨hgate, hmm, ⟨mu, rfl, hge⟩, ⟨pu, rfl, hle⟩⟩
        · rintro ⟨-, hmm, ⟨mu', hmu', hle1⟩, ⟨pu', hpu', hle2⟩⟩
          subst hmu'
          subst hpu'
          exact ⟨hmm, hle1, hle2⟩

/-- C4 witness: with current module 1.5.10, the candidate 1.5.12 with
min TD-preserving version 1.5.8 is capable (via the theorem), and the
candidate 1.5.9 is incapable (older than the current version). -/
theorem C4_td_preserving_iff_witness :
    is_td_preserving_capable pC4 mC4 false = some true ∧
    is_td_preserving_capable pC4 mC4b false = some false := by
  constructor
  · exact (C4_td_preserving_iff pC4 mC4 false ("1.5.10".data) 1 5 10
      (by decide) (by decide)).mpr
      ⟨Or.inl (by decide), by decide, ⟨12, by decide, by decide⟩, ⟨8, by decide, by decide⟩⟩
  · decide

/-- C10 counterexample. The claim states the evaluator is total only
when the current module version has a decimal third dotted component.
The readable empty current version violates that precondition, yet the
evaluator returns False normally (the falsy-string guard fires before
any parsing), so the stated precondition is not necessary for totality. -/
theorem C10_total_on_empty_version :
    get_current_module_version pC10e = some [] ∧
    third_int ([] : List Char) = none ∧
    is_td_preserving_capable pC10e mC10 false = some false := by
  decide

/-- C10, amended: there is a readable malformed current version ("1.5")
on which is_td_preserving_capable raises an uncaught exception (none)
instead of returning False; and whenever the current version is
readable, non-empty and lacks a parseable third dotted component, some
module (any non-debug one) makes the evaluator raise — so it is total
only under the precondition that the current version is empty or has a
decimal third component. -/
theorem C10_malformed_current_raises :
    is_td_preserving_capable pC10 mC10 false = none ∧
    ∀ (p : Platform) (cv : List Char),
      get_current_module_version p = some cv → cv ≠ [] → third_int cv = none →
      ∃ (m : TdxModule) (ad : Bool), is_td_preserving_capable p m ad = none := by
  constructor
  · decide
  · intro p cv hcv hne h3
    refine ⟨mC10, false, ?_⟩
    unfold is_td_preserving_capable
    rw [if_neg (show ¬(is_debug mC10 = true ∧ false = false) by decide)]
    simp only [hcv]
    rw [if_neg hne]
    simp only [h3]

/-- C10 witness: the amended theorem applied to the platform with
current module version "1.5". -/
theorem C10_malformed_current_raises_witness :
    ∃ (m : TdxModule) (ad : Bool), is_td_preserving_capable pC10 m ad = none :=
  C10_malformed_current_raises.2 pC10 ("1.5".data) (by decide) (by decide) (by decide)

/-- C5: when the capability filter completes, find_newest_tdx_module's
candidate set is exactly the TD-preserving-capable modules in catalog
order; an empty set yields none, and otherwise the result is a capable
module whose update component dominates every capable module's (the sort
ignores major and minor). -/
theorem C5_find_newest_spec (p : Platform) (ad : Bool) (modules caps : List TdxModule)
    (hf : filterCapable p ad modules = some caps) :
    caps = modules.filter (fun m => decide (is_td_preserving_capable p m ad = some true)) ∧
    (caps = [] → find_newest_tdx_module p ad modules = some none) ∧
    (caps ≠ [] → ∃ m, find_newest_tdx_module p ad modules = some (some m) ∧
      m ∈ caps ∧ ∀ y ∈ caps, updKey y ≤ updKey m) := by
  refine ⟨filterCapable_eq p ad modules caps hf, ?_, ?_⟩
  · rintro rfl
    unfold find_newest_tdx_module
    rw [hf]
    rfl
  · intro hne
    rcases hsort : sortUpdateDesc caps with _ | ⟨m, t⟩
    · exact absurd ((sortUpdateDesc_eq_nil caps).mp hsort) hne
    · refine ⟨m, ?_, ?_, ?_⟩
      · unfold find_newest_tdx_module
        rw [hf]
        simp [hsort]
      · exact (mem_sortUpdateDesc caps m).mp (hsort ▸ List.mem_cons_self m t)
      · intro y hy
        have hmax := sortUpdateDesc_headMax caps
        rw [hsort] at hmax
        exact hmax y (hsort ▸ (mem_sortUpdateDesc caps y).mpr hy)

/-- C5 witness: with capable candidates 1.5.9, 1.5.12, 1.5.10, the
selection deterministically returns 1.5.12, whose update component
dominates the set. -/
theorem C5_find_newest_spec_witness :
    find_newest_tdx_module pC5 false [mC5a, mC5b, mC5c] = some (some mC5b) ∧
    ∀ y ∈ [mC5a, mC5b, mC5c], updKey y ≤ updKey mC5b := by
  obtain ⟨m, hm, hmem, hmax⟩ :=
    (C5_find_newest_spec pC5 false [mC5a, mC5b, mC5c] [mC5a, mC5b, mC5c]
      (by decide)).2.2 (by decide)
  have heval : find_newest_tdx_module pC5 false [mC5a, mC5b, mC5c] = some (some mC5b) := by
    decide
  have hmeq : m = mC5b := by
    have := hm.symm.trans heval
    simpa using this
  subst hmeq
  exact ⟨heval, hmax⟩

/-- C3: once the loader reaches the idle status (poll succeeding at read
i), a non-empty trimmed error node yields the fatal Failed outcome whose
reported failure reason is the trimmed content verbatim, and an empty
trimmed error node yields Succeeded. -/
theorem C3_loader_error_path (p : Platform) (m : TdxModule) (ad : Bool) (i : Nat)
    (hpath : ¬m.path = none)
    (hcompat : is_compatible p m = true)
    (hcap : is_td_preserving_capable p m ad = some true)
    (hfw : p.firmware_path_exists = true)
    (hpoll : pollIdle p.status_node = some i) :
    (pyStrip p.error_node.data ≠ [] →
      update_tdx_module p (some m) ad =
        some (Outcome.Failed (pyStrip p.error_node.data),
              armEvents m ++ List.replicate (i + 1) FwEvent.readStatus ++ [FwEvent.readError]) ∧
      isFatal (Outcome.Failed (pyStrip p.error_node.data)) = true) ∧
    (pyStrip p.error_node.data = [] →
      update_tdx_module p (some m) ad =
        some (Outcome.Succeeded,
              armEvents m ++ List.replicate (i + 1) FwEvent.readStatus ++ [FwEvent.readError])) := by
  have hstep : update_tdx_module p (some m) ad =
      if pyStrip p.error_node.data = [] then
        some (Outcome.Succeeded,
              armEvents m ++ List.replicate (i + 1) FwEvent.readStatus ++ [FwEvent.readError])
      else
        some (Outcome.Failed (pyStrip p.error_node.data),
              armEvents m ++ List.replicate (i + 1) FwEvent.readStatus ++ [FwEvent.readError]) := by
    simp only [update_tdx_module]
    rw [if_neg hpath]
    rw [if_neg (show ¬is_compatible p m = false by simp [hcompat])]
    rw [if_neg (gate_false_of_cap_true p m ad hcap)]
    simp only [hcap]
    rw [if_neg (show ¬p.firmware_path_exists = false by simp [hfw])]
    simp only [hpoll]
  constructor
  · intro he
    rw [hstep, if_neg he]
    exact ⟨rfl, rfl⟩
  · intro he
    rw [hstep, if_pos he]

/-- C3 witness: on the concrete platform whose error node holds
" boom \n", the loader reports Failed with the trimmed reason, which
equals "boom" verbatim. -/
theorem C3_loader_error_path_witness :
    update_tdx_module pC3 (some mC3) false =
      some (Outcome.Failed (pyStrip pC3.error_node.data),
            armEvents mC3 ++ List.replicate 1 FwEvent.readStatus ++ [FwEvent.readError]) ∧
    pyStrip pC3.error_node.data = "boom".data := by
  constructor
  · exact ((C3_loader_error_path pC3 mC3 false 0 (by decide) (by decide) (by decide)
      (by decide) (by decide)).1 (by decide)).1
  · decide

/-- C7: a candidate rejected by the compatibility check, the debug gate,
or the TD-preserving-capability check produces no control-interface
event at all — none of the loading, data, status and error nodes is
touched. -/
theorem C7_no_write_on_reject (p : Platform) (m : TdxModule) (ad : Bool)
    (out : Outcome) (evs : List FwEvent)
    (h : update_tdx_module p (some m) ad = some (out, evs))
    (hrej : out = Outcome.Incompatible ∨ out = Outcome.DebugRejected ∨
            out = Outcome.NotTdPreserving) :
    evs = [] := by
  simp only [update_tdx_module] at h
  repeat' split at h
  all_goals rcases hrej with rfl | rfl | rfl <;> simp_all

/-- C7 witness: on a platform with an unreadable seamldr version the
candidate is rejected as incompatible and the event trace is empty. -/
theorem C7_no_write_on_reject_witness :
    ∃ r, update_tdx_module pC7 (some mC7) false = some r ∧ r.2 = [] := by
  refine ⟨(Outcome.Incompatible, []), by decide, ?_⟩
  exact C7_no_write_on_reject pC7 mC7 false Outcome.Incompatible [] (by decide) (Or.inl rfl)

/-- C8 counterexample. The claim says the operation never reports
Succeeded when the status node never reads idle within 10 seconds. On
pC8late the reads at 0..10 seconds (all reads within the 10-second
window) never return idle, yet the read at 11 seconds returns idle and —
because the idle test precedes the elapsed-time test — the loader
reports Succeeded. -/
theorem C8_idle_after_deadline_succeeds :
    (∀ j, j ≤ 10 → pyStrip (pC8late.status_node j).data ≠ "idle".data) ∧
    update_tdx_module pC8late (some mC8) false =
      some (Outcome.Succeeded,
            armEvents mC8 ++ List.replicate 12 FwEvent.readStatus ++ [FwEvent.readError]) := by
  decide

/-- C8, amended: if none of the status reads — at 1-second intervals,
through the final read at 11 seconds after entry into polling, the first
read at which the elapsed-time check fires — returns idle, the operation
ends as TimedOut with a failure exit and never reports Succeeded. (An
idle read at the 11-second mark, after the 10-second deadline, is still
accepted as success because the idle test precedes the timeout test.) -/
theorem C8_timeout (p : Platform) (m : TdxModule) (ad : Bool)
    (hpath : ¬m.path = none)
    (hcompat : is_compatible p m = true)
    (hcap : is_td_preserving_capable p m ad = some true)
    (hfw : p.firmware_path_exists = true)
    (hst : ∀ j, j ≤ 11 → pyStrip (p.status_node j).data ≠ "idle".data) :
    update_tdx_module p (some m) ad =
      some (Outcome.TimedOut, armEvents m ++ List.replicate 12 FwEvent.readStatus) ∧
    (∀ evs, update_tdx_module p (some m) ad ≠ some (Outcome.Succeeded, evs)) ∧
    isFatal Outcome.TimedOut = true := by
  have hpoll : pollIdle p.status_node = none := pollGo_timeout p.status_node 12 0 rfl hst
  have hstep : update_tdx_module p (some m) ad =
      some (Outcome.TimedOut, armEvents m ++ List.replicate 12 FwEvent.readStatus) := by
    simp only [update_tdx_module]
    rw [if_neg hpath]
    rw [if_neg (show ¬is_compatible p m = false by simp [hcompat])]
    rw [if_neg (gate_false_of_cap_true p m ad hcap)]
    simp only [hcap]
    rw [if_neg (show ¬p.firmware_path_exists = false by simp [hfw])]
    simp only [hpoll]
  refine ⟨hstep, ?_, rfl⟩
  intro evs hcontra
  rw [hstep] at hcontra
  simp at hcontra

/-- C8 witness: on the concrete platform whose status node always reads
busy, the amended theorem reports TimedOut after the 12 status reads. -/
theorem C8_timeout_witness :
    update_tdx_module pC8to (some mC8) false =
      some (Outcome.TimedOut, armEvents mC8 ++ List.replicate 12 FwEvent.readStatus) :=
  (C8_timeout pC8to mC8 false (by decide) (by decide) (by decide) (by decide) (by decide)).1

/-- C9: whenever the metadata document loads, the catalog build
succeeds, and every record in it originates from a discovered blob whose
filename version parsed, whose header yielded a non-null module type,
and whose exact version has a release-metadata record supplying all
three of min_module_version_for_td_preserving, min_seamldr_versions and
tdx_feature0 — so a candidate blob failing any of these contributes no
record, and no partially populated record exists. -/
theorem C9_catalog_invariant (releases : List ReleaseInfo) (blobs : List BlobFile) :
    ∃ mods, get_all_tdx_modules (some releases) blobs = some mods ∧
      ∀ m ∈ mods, ∃ bf ∈ blobs,
        extractVersion bf.name = some m.version ∧
        m.path = some bf.name ∧
        get_module_type bf.content = some m.type ∧
        m.supported_CPU_family_model = get_supported_cpu_family_model bf.content ∧
        ∃ rel, lookupRelease releases m.version = some rel ∧
          rel.min_module_version_for_td_preserving =
            some m.min_module_version_for_td_preserving ∧
          rel.min_seamldr_versions = some m.min_seamldr_versions ∧
          rel.tdx_feature0 = some m.tdx_feature0 := by
  refine ⟨buildModules releases blobs, rfl, ?_⟩
  induction blobs with
  | nil =>
    intro m hm
    simp [buildModules] at hm
  | cons bf rest ih =>
    intro m hm
    simp only [buildModules] at hm
    rcases hv : extractVersion bf.name with _ | version
    · simp only [hv] at hm
      obtain ⟨bf', hbf', hrest⟩ := ih m hm
      exact ⟨bf', List.mem_cons_of_mem bf hbf', hrest⟩
    · simp only [hv] at hm
      rcases hr : lookupRelease releases version with _ | rel
      · simp only [hr] at hm
        obtain ⟨bf', hbf', hrest⟩ := ih m hm
        exact ⟨bf', List.mem_cons_of_mem bf hbf', hrest⟩
      · simp only [hr] at hm
        have hskip : m ∈ buildModules releases rest →
            ∃ bf' ∈ bf :: rest,
              extractVersion bf'.name = some m.version ∧
              m.path = some bf'.name ∧
              get_module_type bf'.content = some m.type ∧
              m.supported_CPU_family_model = get_supported_cpu_family_model bf'.content ∧
              ∃ rel', lookupRelease releases m.version = some rel' ∧
                rel'.min_module_version_for_td_preserving =
                  some m.min_module_version_for_td_preserving ∧
                rel'.min_seamldr_versions = some m.min_seamldr_versions ∧
                rel'.tdx_feature0 = some m.tdx_feature0 := by
          intro hm2
          obtain ⟨bf2, hbf2, hrest⟩ := ih m hm2
          exact ⟨bf2, List.mem_cons_of_mem bf hbf2, hrest⟩
        rcases hmt : get_module_type bf.content with _ | t <;>
          rcases h1 : rel.min_module_version_for_td_preserving with _ | mv <;>
          rcases h2 : rel.min_seamldr_versions with _ | sls <;>
          rcases h3 : rel.tdx_feature0 with _ | f0 <;>
          simp only [hmt, h1, h2, h3] at hm <;>
          first
          | exact hskip hm
          | (rcases List.mem_cons.mp hm with rfl | hm2
             · exact ⟨bf, List.mem_cons_self bf rest, hv, rfl, hmt, rfl, rel, hr, h1, h2, h3⟩
             · exact hskip hm2)

/-- C9 witness: on the concrete fixture the catalog build succeeds (by
the theorem), and evaluating it shows the 1.5.12 blob becomes the single
fully populated record while the 1.5.13 blob — which has no metadata
entry — is dropped without failing the build. -/
theorem C9_catalog_invariant_witness :
    (get_all_tdx_modules (some rsC9) bsC9).isSome = true ∧
    get_all_tdx_modules (some rsC9) bsC9 =
      some [{ version := "1.5.12"
              path := some "tdx_module_1.5.12.blob"
              supported_CPU_family_model := [16]
              min_module_version_for_td_preserving := "1.5.8"
              min_seamldr_versions := ["2.1.3"]
              tdx_feature0 := "0"
              type := 7 }] := by
  constructor
  · obtain ⟨mods, hmods, -⟩ := C9_catalog_invariant rsC9 bsC9
    rw [hmods]
    rfl
  · decide
